import Mathlib

/-!
Shallow embedding of `src/backend/book.py` (class `AddressBook`): a SQLite-backed
address book storing contacts, phones and birthdays, with regex/strptime input
validation and string-formatted reports.

The SQLite tables themselves are not created in the repository's sources; their
schema is modelled from the specification (§6):
  contacts(contact_name TEXT PRIMARY KEY)
  phones(contact_name TEXT REFERENCES contacts ON DELETE CASCADE, phone TEXT,
         UNIQUE(contact_name, phone))
  birthdays(contact_name TEXT PRIMARY KEY REFERENCES contacts ON DELETE CASCADE,
            birthday TEXT)
Rows are modelled as lists in rowid order: an INSERT appends, an UPDATE rewrites
in place, INSERT OR REPLACE deletes the conflicting row and appends.  TEXT
comparison in SQLite is memcmp of the bytes; on the ASCII date strings involved
this is lexicographic comparison of the character lists.  SQLite's date parser
(`DATE`, `STRFTIME`) accepts `YYYY-MM-DD` with month 1..12 and day 1..31 without
checking the day against the month, and `DATE(s)` echoes such a string
unnormalised (sqlite 3.40 behaviour observed for e.g. '2025-02-29').
Python's `strftime('%Y')` (glibc) prints years below 1000 without zero
padding, and `strptime`'s `\d` also accepts non-ASCII Unicode decimal
digits; the validators here are strptime's ASCII restriction, exact on
ASCII text.
-/

namespace Book

/-- The character for one decimal digit (argument taken mod 10 by callers). -/
def digitChar (n : Nat) : Char :=
  match n with
  | 0 => '0' | 1 => '1' | 2 => '2' | 3 => '3' | 4 => '4'
  | 5 => '5' | 6 => '6' | 7 => '7' | 8 => '8' | _ => '9'

/-- Numeric value of a digit character. -/
def charVal (c : Char) : Nat := c.toNat - 48

/-- `n` printed as exactly `w` decimal digits, zero padded (big-endian). -/
def padDigits : Nat → Nat → List Char
  | 0, _ => []
  | w + 1, n => padDigits w (n / 10) ++ [digitChar (n % 10)]

/-- Value of a big-endian digit string. -/
def listToNat (l : List Char) : Nat := l.foldl (fun a c => 10 * a + charVal c) 0

/-- Split a character list on a separator character (like `str.split`). -/
def splitOnChar (sep : Char) : List Char → List (List Char)
  | [] => [[]]
  | c :: cs =>
    let r := splitOnChar sep cs
    if c = sep then [] :: r
    else
      match r with
      | [] => [[c]]
      | h :: t => (c :: h) :: t

/-- Three-way lexicographic comparison of character lists: the memcmp order
SQLite uses for TEXT values (all strings involved are ASCII). -/
def lcmp : List Char → List Char → Ordering
  | [], [] => .eq
  | [], _ :: _ => .lt
  | _ :: _, [] => .gt
  | a :: as, b :: bs => if a < b then .lt else if b < a then .gt else lcmp as bs

/-- Explicit three-way comparison on Nat. -/
def natCmp (n m : Nat) : Ordering := if n < m then .lt else if m < n then .gt else .eq

/-- Gregorian leap year, as both Python `datetime.date` and SQLite use. -/
def isLeapYear (y : Nat) : Bool := y % 4 == 0 && (y % 100 != 0 || y % 400 == 0)

/-- Days in a month of a year (months outside 1..12 never reach this through
the validators; the catch-all returns 31). -/
def daysInMonth (y m : Nat) : Nat :=
  if m = 2 then (if isLeapYear y then 29 else 28)
  else if m = 4 ∨ m = 6 ∨ m = 9 ∨ m = 11 then 30
  else 31

/-- A calendar date (or a year-month-day triple that may fail validity). -/
structure Ymd where
  y : Nat
  m : Nat
  d : Nat
deriving DecidableEq, Repr

/-- A valid Python `datetime.date`: year 1..9999, real calendar day. -/
def validYmd (a : Ymd) : Bool :=
  1 ≤ a.y && a.y ≤ 9999 && 1 ≤ a.m && a.m ≤ 12 && 1 ≤ a.d && a.d ≤ daysInMonth a.y a.m

/-- The next calendar day. -/
def nextDay (a : Ymd) : Ymd :=
  if a.d < daysInMonth a.y a.m then ⟨a.y, a.m, a.d + 1⟩
  else if a.m < 12 then ⟨a.y, a.m + 1, 1⟩
  else ⟨a.y + 1, 1, 1⟩

/-- `n` calendar days later (SQLite's `DATE(d, '+n days')` on a valid date). -/
def addDays : Nat → Ymd → Ymd
  | 0, a => a
  | n + 1, a => addDays n (nextDay a)

/-- A year as glibc `strftime('%Y')` prints it: plain decimal, NOT padded to
four digits — `date(999, 12, 31).strftime('%Y-%m-%d')` is `'999-12-31'`.
(Valid years are at most 9999, so at most four digits are ever printed.) -/
def yearChars (y : Nat) : List Char :=
  if y < 10 then padDigits 1 y
  else if y < 100 then padDigits 2 y
  else if y < 1000 then padDigits 3 y
  else padDigits 4 y

/-- The fixed-width `YYYY-MM-DD` string SQLite's `STRFTIME` builds (its `%Y`
pads to four digits, unlike glibc's): used by the birthday-window query. -/
def encYmdChars (a : Ymd) : List Char :=
  padDigits 4 a.y ++ '-' :: (padDigits 2 a.m ++ '-' :: padDigits 2 a.d)

/-- The fixed-width form as a string. -/
def encYmd (a : Ymd) : String := ⟨encYmdChars a⟩

/-- What Python `strftime('%Y-%m-%d')` actually stores: month and day
zero-padded, the year unpadded.  Equal to `encYmdChars` only for years at
least 1000. -/
def pyEncYmdChars (a : Ymd) : List Char :=
  yearChars a.y ++ '-' :: (padDigits 2 a.m ++ '-' :: padDigits 2 a.d)

/-- The stored form as a string. -/
def pyEncYmd (a : Ymd) : String := ⟨pyEncYmdChars a⟩

/-- The display form Python `strftime('%d.%m.%Y')` prints: day and month
zero-padded, the year unpadded (glibc). -/
def fmtOutChars (a : Ymd) : List Char :=
  padDigits 2 a.d ++ '.' :: (padDigits 2 a.m ++ '.' :: yearChars a.y)

/-- The display form as a string. -/
def fmtOut (a : Ymd) : String := ⟨fmtOutChars a⟩

/-- The claims' zero-padded `dd.mm.yyyy` text form (two, two and four
digits).  Equal to `fmtOutChars` only for years at least 1000. -/
def fmtInChars (a : Ymd) : List Char :=
  padDigits 2 a.d ++ '.' :: (padDigits 2 a.m ++ '.' :: padDigits 4 a.y)

/-- The `dd.mm.yyyy` text form as a string. -/
def fmtIn (a : Ymd) : String := ⟨fmtInChars a⟩

/-- What an `AddressBook` call can raise: Python `ValueError` from the
validators (the spec's `ValidationError`, message included), a
`sqlite3.IntegrityError` from a constraint of the modelled schema, or another
Python error (only on states no public operation can produce). -/
inductive ABError where
  | validation (msg : String)
  | integrity
  | pyError
deriving DecidableEq, Repr

def nameErrMsg : String := "Name can consist of letters A-z only."

def phoneErrMsg : String := "Phone must consist of 10 digits, example 0971122333"

def inBirthdayErrMsg : String := "Input date must be in format dd.mm.yyyy, example: 31.12.2024"

def outBirthdayErrMsg : String := "Database date must be in format yyyy-mm-dd, example: 2024-12-31"

/-- `re.fullmatch(r'[A-z]{2,32}', name)`: 2 to 32 characters, each in the
code-point range 'A' (65) to 'z' (122). -/
def nameOk (l : List Char) : Bool :=
  decide (2 ≤ l.length) && decide (l.length ≤ 32) && l.all (fun c => 'A' ≤ c && c ≤ 'z')

/-- `AddressBook.__validate_input_name`. -/
def validate_input_name (name : String) : Except ABError String :=
  if nameOk name.data then .ok name else .error (.validation nameErrMsg)

/-- `re.fullmatch(r'[0-9]{10}', phone)`. -/
def phoneOk (l : List Char) : Bool := l.length == 10 && l.all Char.isDigit

/-- `AddressBook.__validate_input_phone`. -/
def validate_input_phone (phone : String) : Except ABError String :=
  if phoneOk phone.data then .ok phone else .error (.validation phoneErrMsg)

/-- One numeric field of `strptime`'s `%d` or `%m`: one or two digits whose
value lies in `lo..hi` (the compiled patterns `3[01]|[12]\d|0[1-9]|[1-9]` and
`1[0-2]|0[1-9]|[1-9]`). -/
def numPartOk (lo hi : Nat) (l : List Char) : Bool :=
  !l.isEmpty && decide (l.length ≤ 2) && l.all Char.isDigit &&
    decide (lo ≤ listToNat l) && decide (listToNat l ≤ hi)

/-- `strptime`'s `%d` (`3[0-1]|[1-2]\d|0[1-9]|[1-9]| [1-9]`): like a numeric
field of value 1..31, or a space followed by one digit 1..9.  (In the space
form `listToNat` still yields the digit's value, as `charVal ' ' = 0`,
matching Python's `int(' 5') = 5`.) -/
def dayPartOk (l : List Char) : Bool :=
  numPartOk 1 31 l ||
    (match l with
     | [' ', c] => '1' ≤ c && c ≤ '9'
     | _ => false)

/-- `strptime`'s `%Y`: exactly four digits. -/
def yearPartOk (l : List Char) : Bool := l.length == 4 && l.all Char.isDigit

/-- `AddressBook.__validate_input_birthday`: `strptime(birthday, '%d.%m.%Y')`
(which also checks the day against the month and rejects year 0) followed by
`strftime('%Y-%m-%d')`, which stores the year unpadded.  This is the ASCII
restriction of strptime: CPython's `\d` (in `%Y` and in the second character
of `%d`'s `[1-2]\d`) also accepts non-ASCII Unicode decimal digits, which
this model rejects — theorems quantifying over arbitrary birthday texts
therefore restrict the text to ASCII, where the model is exact. -/
def validate_input_birthday (birthday : String) : Except ABError String :=
  match splitOnChar '.' birthday.data with
  | [ds, ms, ys] =>
    if dayPartOk ds && numPartOk 1 12 ms && yearPartOk ys then
      let d := listToNat ds
      let m := listToNat ms
      let y := listToNat ys
      if 1 ≤ y ∧ d ≤ daysInMonth y m then .ok (pyEncYmd ⟨y, m, d⟩)
      else .error (.validation inBirthdayErrMsg)
    else .error (.validation inBirthdayErrMsg)
  | _ => .error (.validation inBirthdayErrMsg)

/-- `AddressBook.__validate_output_birthday`: `strptime(birthday, '%Y-%m-%d')`
followed by `strftime('%d.%m.%Y')` (year printed unpadded).  Like the inbound
validator this is strptime's ASCII restriction, exact on ASCII cells — and
every reachable stored cell is ASCII. -/
def validate_output_birthday (birthday : String) : Except ABError String :=
  match splitOnChar '-' birthday.data with
  | [ys, ms, ds] =>
    if yearPartOk ys && numPartOk 1 12 ms && dayPartOk ds then
      let y := listToNat ys
      let m := listToNat ms
      let d := listToNat ds
      if 1 ≤ y ∧ d ≤ daysInMonth y m then .ok (fmtOut ⟨y, m, d⟩)
      else .error (.validation outBirthdayErrMsg)
    else .error (.validation outBirthdayErrMsg)
  | _ => .error (.validation outBirthdayErrMsg)

/-- SQLite's date parser on a stored birthday cell (the shape every value the
operations store has): `YYYY-MM-DD`, digits, month 1..12, day 1..31 — the day
is not checked against the month. -/
def sqliteParseYmd (l : List Char) : Option Ymd :=
  match l with
  | [y1, y2, y3, y4, '-', m1, m2, '-', d1, d2] =>
    if [y1, y2, y3, y4, m1, m2, d1, d2].all Char.isDigit then
      if 1 ≤ listToNat [m1, m2] ∧ listToNat [m1, m2] ≤ 12 ∧
          1 ≤ listToNat [d1, d2] ∧ listToNat [d1, d2] ≤ 31 then
        some ⟨listToNat [y1, y2, y3, y4], listToNat [m1, m2], listToNat [d1, d2]⟩
      else none
    else none
  | _ => none

/-- The three tables, each list in rowid order.  Modelled from the spec:
the schema (`CREATE TABLE` statements are not in the repository's sources) is
`contacts(contact_name PRIMARY KEY)`,
`phones(contact_name REFERENCES contacts ON DELETE CASCADE, phone,
UNIQUE(contact_name, phone))`,
`birthdays(contact_name PRIMARY KEY REFERENCES contacts ON DELETE CASCADE,
birthday)`, with foreign keys enforced (`PRAGMA foreign_keys = ON` in
`AddressBook.__init__`). -/
structure DB where
  contacts : List String
  phones : List (String × String)
  birthdays : List (String × String)
deriving DecidableEq, Repr

/-- `AddressBook.__is_contact_present`. -/
def is_contact_present (name : String) (db : DB) : Bool := db.contacts.contains name

/-- `AddressBook.__is_phone_present`. -/
def is_phone_present (name phone : String) (db : DB) : Bool :=
  db.phones.contains (name, phone)

/-- `AddressBook.__is_birthday_present`. -/
def is_birthday_present (name : String) (db : DB) : Bool :=
  db.birthdays.any (fun r => r.1 == name)

/-- `AddressBook.__insert_or_update_contact`: INSERT .. ON CONFLICT(contact_name)
DO UPDATE keeps the existing row (the update writes the same key back). -/
def insert_or_update_contact (name : String) (db : DB) : DB :=
  if db.contacts.contains name then db
  else { db with contacts := db.contacts ++ [name] }

/-- Upsert on a PRIMARY KEY column: replace the first (only) row with the key
in place, else append. -/
def upsertRow : List (String × String) → String → String → List (String × String)
  | [], n, v => [(n, v)]
  | r :: rs, n, v => if r.1 = n then (n, v) :: rs else r :: upsertRow rs n v

/-- `AddressBook.__insert_or_update_birthday`: upsert keyed on `contact_name`;
inserting for an absent contact violates the foreign key. -/
def insert_or_update_birthday (name birthday : String) (db : DB) : Except ABError DB :=
  if db.contacts.contains name then
    .ok { db with birthdays := upsertRow db.birthdays name birthday }
  else .error .integrity

/-- `AddressBook.__insert_or_replace_phone`: INSERT OR REPLACE deletes a
conflicting `(contact_name, phone)` row and appends the new one; inserting for
an absent contact violates the foreign key. -/
def insert_or_replace_phone (name phone : String) (db : DB) : Except ABError DB :=
  if db.contacts.contains name then
    .ok { db with
          phones := db.phones.filter (fun r => !(r == (name, phone))) ++ [(name, phone)] }
  else .error .integrity

/-- The UPDATE of `__update_phone` violates `UNIQUE(contact_name, phone)`:
a row matches the WHERE clause, the new value differs, and the updated row
would duplicate an existing row. -/
def update_phone_conflict (name phone new_phone : String) (db : DB) : Bool :=
  db.phones.contains (name, phone) && !(new_phone == phone) &&
    db.phones.contains (name, new_phone)

/-- `AddressBook.__update_phone`: UPDATE rewrites matching rows in place; it
aborts with an integrity error when the updated row would duplicate an
existing `(contact_name, phone)` row. -/
def update_phone (name phone new_phone : String) (db : DB) : Except ABError DB :=
  if update_phone_conflict name phone new_phone db then
    .error .integrity
  else
    .ok { db with
          phones := db.phones.map (fun r => if r == (name, phone) then (name, new_phone) else r) }

/-- `AddressBook.__select_birthday` (`fetchone` on a PRIMARY KEY lookup). -/
def select_birthday (name : String) (db : DB) : Option String :=
  (db.birthdays.find? (fun r => r.1 == name)).map (fun r => r.2)

/-- The WHERE clause of `__select_birthdays_next_week` on a non-NULL
`birthday_this_year` string:
`birthday_this_year >= DATE('NOW') AND birthday_this_year <= DATE('NOW', '+7 days')`
under SQLite's TEXT (memcmp) comparison. -/
def strInWindow (today : Ymd) (t : List Char) : Bool :=
  !(lcmp (encYmdChars today) t == .gt) && !(lcmp t (encYmdChars (addDays 7 today)) == .gt)

/-- `AddressBook.__select_birthdays_next_week`: build
`STRFTIME('%Y', DATE('NOW')) || STRFTIME('-%m-%d', birthday)` for every row
(`NULL`, dropped, when the cell does not parse), keep rows passing the WHERE
clause; `DATE(..)` echoes the concatenation unnormalised. -/
def select_birthdays_next_week (today : Ymd) (db : DB) : List (String × String) :=
  db.birthdays.filterMap fun r =>
    match sqliteParseYmd r.2.data with
    | none => none
    | some x =>
      let t := encYmdChars ⟨today.y, x.m, x.d⟩
      if strInWindow today t then some (r.1, (⟨t⟩ : String)) else none

/-- `AddressBook.__select_contact_phones` (rowid order). -/
def select_contact_phones (name : String) (db : DB) : List (String × String) :=
  db.phones.filter (fun r => r.1 == name)

/-- `AddressBook.__select_all_phones`. -/
def select_all_phones (db : DB) : List (String × String) := db.phones

/-- `AddressBook.add_birthday`. -/
def add_birthday (name birthday : String) (db : DB) : Except ABError String × DB :=
  match validate_input_name name with
  | .error e => (.error e, db)
  | .ok n =>
    match validate_input_birthday birthday with
    | .error e => (.error e, db)
    | .ok b =>
      let db1 := insert_or_update_contact n db
      match insert_or_update_birthday n b db1 with
      | .error e => (.error e, db1)
      | .ok db2 => (.ok "Birthday: added.", db2)

/-- `AddressBook.add_phone`. -/
def add_phone (name phone : String) (db : DB) : Except ABError String × DB :=
  match validate_input_name name with
  | .error e => (.error e, db)
  | .ok n =>
    match validate_input_phone phone with
    | .error e => (.error e, db)
    | .ok p =>
      let db1 := insert_or_update_contact n db
      match insert_or_replace_phone n p db1 with
      | .error e => (.error e, db1)
      | .ok db2 => (.ok "Phone: added.", db2)

/-- `AddressBook.edit_phone`. -/
def edit_phone (name phone new_phone : String) (db : DB) : Except ABError String × DB :=
  match validate_input_name name with
  | .error e => (.error e, db)
  | .ok n =>
  match validate_input_phone phone with
  | .error e => (.error e, db)
  | .ok p =>
  match validate_input_phone new_phone with
  | .error e => (.error e, db)
  | .ok p2 =>
  if !is_contact_present n db then
    (.ok ("Contact " ++ n ++ " is absent in address book and can not be edited."), db)
  else if !is_phone_present n p db then
    (.ok ("Phone " ++ p ++ " is absent in contact " ++ n ++ " and can not be edited."), db)
  else
    match update_phone n p p2 db with
    | .error e => (.error e, db)
    | .ok db1 => (.ok "Phone: updated.", db1)

/-- `AddressBook.show_birthday`.  The `none` branch of the select is guarded
by `is_birthday_present` (a `None` row would be a Python `TypeError` on
subscripting, not a `ValidationError`). -/
def show_birthday (name : String) (db : DB) : Except ABError String :=
  match validate_input_name name with
  | .error e => .error e
  | .ok n =>
  if !is_contact_present n db then
    .ok ("Contact " ++ n ++ " is absent in address book, birthday can not be displayed.")
  else if !is_birthday_present n db then
    .ok ("Contact: " ++ n ++ ", Birthday: not entered yet.")
  else
    match select_birthday n db with
    | none => .error .pyError
    | some bd =>
      match validate_output_birthday bd with
      | .error e => .error e
      | .ok b => .ok ("Contact: " ++ n ++ ", Birthday: " ++ b)

/-- The report loop of `show_birthdays_next_week`: the first row whose cell
fails the outbound conversion raises. -/
def congratsReport : List (String × String) → Except ABError String
  | [] => .ok ""
  | (n, b) :: rs =>
    match validate_output_birthday b with
    | .error e => .error e
    | .ok b2 =>
      match congratsReport rs with
      | .error e => .error e
      | .ok rest => .ok ("Contact: " ++ n ++ ", Congratulation: " ++ b2 ++ " \n\n" ++ rest)

/-- `AddressBook.show_birthdays_next_week`. -/
def show_birthdays_next_week (today : Ymd) (db : DB) : Except ABError String :=
  let rows := select_birthdays_next_week today db
  if rows.length = 0 then .ok "There are no birthdays next week."
  else
    match congratsReport rows with
    | .error e => .error e
    | .ok body => .ok ("Birthdays next week: \n\n" ++ body)

/-- The report loop shared by `show_phones` and `show_phones_all_contacts`. -/
def phonesReport : List (String × String) → String
  | [] => ""
  | (n, p) :: rs => "Contact: " ++ n ++ ", Phone: " ++ p ++ " \n\n" ++ phonesReport rs

/-- `AddressBook.show_phones`. -/
def show_phones (name : String) (db : DB) : Except ABError String :=
  match validate_input_name name with
  | .error e => .error e
  | .ok n =>
  if !is_contact_present n db then
    .ok ("Contact " ++ n ++ " is absent in address book, phones can not be displayed.")
  else
    let ps := select_contact_phones n db
    if ps.length = 0 then .ok ("Contact: " ++ n ++ ", Phones: not entered yet.")
    else .ok ("Contact phones: \n\n" ++ phonesReport ps)

/-- `AddressBook.show_phones_all_contacts` (no input, cannot raise). -/
def show_phones_all_contacts (db : DB) : String :=
  let ps := select_all_phones db
  if ps.length = 0 then "Phones: not entered yet."
  else "All phones in address book: \n\n" ++ phonesReport ps

/-! ### Spec-side definitions, for comparing the code with the claims' words -/

/-- The claim's stated name pattern, `[A-Za-z]{2,32}` (ASCII letters only);
the code's pattern is `[A-z]{2,32}`. -/
def specNamePattern (l : List Char) : Bool :=
  decide (2 ≤ l.length) && decide (l.length ≤ 32) &&
    l.all (fun c => ('A' ≤ c && c ≤ 'Z') || ('a' ≤ c && c ≤ 'z'))

/-- Three-way comparison of year-month-day triples: calendar order on valid
dates. -/
def ymdCmp (a b : Ymd) : Ordering :=
  (natCmp a.y b.y).then ((natCmp a.m b.m).then (natCmp a.d b.d))

/-- The claim's inclusive calendar window test:
`today <= t` and `t <= today + 7 days` in calendar order. -/
def ymdInWindow (today t : Ymd) : Bool :=
  !(ymdCmp today t == .gt) && !(ymdCmp t (addDays 7 today) == .gt)

/-- The claim's selection for `showBirthdaysNextWeek`: each stored birthday's
month-day recomputed against the current year, kept when it falls in the
inclusive calendar window `[today, today + 7 days]`. -/
def specSelect (today : Ymd) (db : DB) : List (String × Ymd) :=
  db.birthdays.filterMap fun r =>
    (sqliteParseYmd r.2.data).bind fun x =>
      let t : Ymd := ⟨today.y, x.m, x.d⟩
      if ymdInWindow today t then some (r.1, t) else none

/-- The congratulation lines of the claim's report, in row order. -/
def specCongrats : List (String × Ymd) → String
  | [] => ""
  | r :: rs =>
    "Contact: " ++ r.1 ++ ", Congratulation: " ++ fmtOut r.2 ++ " \n\n" ++ specCongrats rs

/-- The claim's report for `showBirthdaysNextWeek` built from `specSelect`. -/
def specNextWeekReport (today : Ymd) (db : DB) : String :=
  if specSelect today db = [] then "There are no birthdays next week."
  else "Birthdays next week: \n\n" ++ specCongrats (specSelect today db)

/-- Referential integrity: every phones row and every birthdays row names an
existing contact. -/
def refIntegrity (db : DB) : Prop :=
  (∀ r ∈ db.phones, r.1 ∈ db.contacts) ∧ (∀ r ∈ db.birthdays, r.1 ∈ db.contacts)

/-! ### Digit strings -/

theorem daysInMonth_le_31 (y m : Nat) : daysInMonth y m ≤ 31 := by
  unfold daysInMonth
  split
  · split <;> omega
  · split <;> omega

theorem charVal_digitChar : ∀ k, k < 10 → charVal (digitChar k) = k := by decide

theorem digitChar_isDigit : ∀ k, k < 10 → (digitChar k).isDigit = true := by decide

theorem padDigits_length (w n : Nat) : (padDigits w n).length = w := by
  induction w generalizing n with
  | zero => rfl
  | succ w ih => simp [padDigits, ih]

theorem padDigits_isDigit (w n : Nat) : ∀ c ∈ padDigits w n, c.isDigit = true := by
  induction w generalizing n with
  | zero => intro c hc; simp [padDigits] at hc
  | succ w ih =>
    intro c hc
    simp only [padDigits, List.mem_append, List.mem_singleton] at hc
    rcases hc with hc | hc
    · exact ih _ c hc
    · subst hc; exact digitChar_isDigit _ (Nat.mod_lt _ (by omega))

theorem isDigit_toNat_bounds {c : Char} (h : c.isDigit = true) :
    48 ≤ c.toNat ∧ c.toNat ≤ 57 := by
  simpa [Char.isDigit] using h

theorem charVal_le_nine {c : Char} (h : c.isDigit = true) : charVal c ≤ 9 := by
  have := isDigit_toNat_bounds h
  unfold charVal
  omega

theorem isDigit_ne_dot {c : Char} (h : c.isDigit = true) : c ≠ '.' := by
  intro e; subst e; simp [Char.isDigit] at h

theorem isDigit_ne_dash {c : Char} (h : c.isDigit = true) : c ≠ '-' := by
  intro e; subst e; simp [Char.isDigit] at h

theorem listToNat_append_digit (l : List Char) (c : Char) :
    listToNat (l ++ [c]) = 10 * listToNat l + charVal c := by
  simp [listToNat, List.foldl_append]

theorem listToNat_padDigits (w n : Nat) (h : n < 10 ^ w) :
    listToNat (padDigits w n) = n := by
  induction w generalizing n with
  | zero => simp [listToNat, padDigits]; omega
  | succ w ih =>
    have hdiv : n / 10 < 10 ^ w := by
      rw [Nat.div_lt_iff_lt_mul (by omega)]
      calc n < 10 ^ (w + 1) := h
        _ = 10 ^ w * 10 := by ring
    rw [padDigits, listToNat_append_digit, ih _ hdiv, charVal_digitChar _ (Nat.mod_lt _ (by omega))]
    omega

theorem listToNat_le (l : List Char) (h : ∀ c ∈ l, c.isDigit = true) :
    listToNat l < 10 ^ l.length := by
  induction l using List.reverseRecOn with
  | nil => simp [listToNat]
  | append_singleton xs c ih =>
    rw [listToNat_append_digit]
    have h1 : listToNat xs < 10 ^ xs.length := ih fun d hd => h d (by simp [hd])
    have h2 : charVal c ≤ 9 := charVal_le_nine (h c (by simp))
    simp only [List.length_append, List.length_singleton]
    calc 10 * listToNat xs + charVal c < 10 * 10 ^ xs.length := by omega
      _ = 10 ^ (xs.length + 1) := by ring

/-! ### Splitting -/

theorem splitOnChar_not_mem (sep : Char) (l : List Char) (h : sep ∉ l) :
    splitOnChar sep l = [l] := by
  induction l with
  | nil => rfl
  | cons c cs ih =>
    have hc : c ≠ sep := fun e => h (by simp [e])
    have : splitOnChar sep cs = [cs] := ih (fun hm => h (by simp [hm]))
    simp [splitOnChar, this, hc]

theorem splitOnChar_append (sep : Char) (xs ys : List Char) (h : sep ∉ xs) :
    splitOnChar sep (xs ++ sep :: ys) = xs :: splitOnChar sep ys := by
  induction xs with
  | nil => simp [splitOnChar]
  | cons c cs ih =>
    have hc : c ≠ sep := fun e => h (by simp [e])
    have hys : splitOnChar sep (cs ++ sep :: ys) = cs :: splitOnChar sep ys :=
      ih (fun hm => h (by simp [hm]))
    simp [splitOnChar, hys, hc]

/-! ### Lexicographic comparison of fixed-width ASCII date strings -/

theorem lcmp_cons_same (c : Char) (u v : List Char) :
    lcmp (c :: u) (c :: v) = lcmp u v := by
  simp [lcmp]

theorem lcmp_append (xs ys u v : List Char) (h : xs.length = ys.length) :
    lcmp (xs ++ u) (ys ++ v) = (lcmp xs ys).then (lcmp u v) := by
  induction xs generalizing ys with
  | nil =>
    cases ys with
    | nil => simp [lcmp, Ordering.then]
    | cons b bs => simp at h
  | cons a as ih =>
    cases ys with
    | nil => simp at h
    | cons b bs =>
      simp only [List.length_cons, Nat.succ_inj] at h
      by_cases hab : a < b
      · simp [lcmp, hab, Ordering.then]
      · by_cases hba : b < a
        · simp [lcmp, hab, hba, Ordering.then]
        · simp only [List.cons_append, lcmp, hab, hba, if_false]
          exact ih bs h

theorem natCmp_lt {n m : Nat} (h : n < m) : natCmp n m = .lt := by
  unfold natCmp
  rw [if_pos h]

theorem natCmp_gt {n m : Nat} (h : m < n) : natCmp n m = .gt := by
  unfold natCmp
  rw [if_neg (Nat.lt_asymm h), if_pos h]

theorem natCmp_eq {n m : Nat} (h : n = m) : natCmp n m = .eq := by
  unfold natCmp
  rw [if_neg (by omega), if_neg (by omega)]

theorem natCmp_then_div_mod (n m : Nat) :
    natCmp n m = (natCmp (n / 10) (m / 10)).then (natCmp (n % 10) (m % 10)) := by
  have hn := Nat.div_add_mod n 10
  have hm := Nat.div_add_mod m 10
  have h1 : n % 10 < 10 := Nat.mod_lt _ (by omega)
  have h2 : m % 10 < 10 := Nat.mod_lt _ (by omega)
  rcases Nat.lt_trichotomy (n / 10) (m / 10) with h | h | h
  · rw [natCmp_lt h, natCmp_lt (show n < m by omega)]
    rfl
  · rw [natCmp_eq h]
    have : natCmp n m = natCmp (n % 10) (m % 10) := by
      rcases Nat.lt_trichotomy (n % 10) (m % 10) with h' | h' | h'
      · rw [natCmp_lt h', natCmp_lt (show n < m by omega)]
      · rw [natCmp_eq h', natCmp_eq (show n = m by omega)]
      · rw [natCmp_gt h', natCmp_gt (show m < n by omega)]
    rw [this]
    rfl
  · rw [natCmp_gt h, natCmp_gt (show m < n by omega)]
    rfl

theorem lcmp_digit_single : ∀ a, a < 10 → ∀ b, b < 10 →
    lcmp [digitChar a] [digitChar b] = natCmp a b := by decide

theorem lcmp_padDigits (w n m : Nat) (hn : n < 10 ^ w) (hm : m < 10 ^ w) :
    lcmp (padDigits w n) (padDigits w m) = natCmp n m := by
  induction w generalizing n m with
  | zero =>
    have : n = 0 := by omega
    have : m = 0 := by omega
    simp_all [padDigits, lcmp, natCmp]
  | succ w ih =>
    have hdn : n / 10 < 10 ^ w := by
      rw [Nat.div_lt_iff_lt_mul (by omega)]
      calc n < 10 ^ (w + 1) := hn
        _ = 10 ^ w * 10 := by ring
    have hdm : m / 10 < 10 ^ w := by
      rw [Nat.div_lt_iff_lt_mul (by omega)]
      calc m < 10 ^ (w + 1) := hm
        _ = 10 ^ w * 10 := by ring
    rw [padDigits, padDigits,
      lcmp_append _ _ _ _ (by rw [padDigits_length, padDigits_length]),
      ih _ _ hdn hdm,
      lcmp_digit_single _ (Nat.mod_lt _ (by omega)) _ (Nat.mod_lt _ (by omega)),
      ← natCmp_then_div_mod]

/-- Bounds under which a `Ymd` triple's encoded string is fixed-width. -/
def ymdBounded (a : Ymd) : Prop := a.y < 10000 ∧ a.m < 100 ∧ a.d < 100

theorem lcmp_encYmd (a b : Ymd) (ha : ymdBounded a) (hb : ymdBounded b) :
    lcmp (encYmdChars a) (encYmdChars b) = ymdCmp a b := by
  obtain ⟨hay, ham, had⟩ := ha
  obtain ⟨hby, hbm, hbd⟩ := hb
  unfold encYmdChars ymdCmp
  rw [lcmp_append _ _ _ _ (by rw [padDigits_length, padDigits_length]),
    lcmp_padDigits 4 _ _ (by simpa using hay) (by simpa using hby),
    lcmp_cons_same,
    lcmp_append _ _ _ _ (by rw [padDigits_length, padDigits_length]),
    lcmp_padDigits 2 _ _ (by simpa using ham) (by simpa using hbm),
    lcmp_cons_same,
    lcmp_padDigits 2 _ _ (by simpa using had) (by simpa using hbd)]

/-! ### Validator round trips -/

theorem dot_not_mem_padDigits (w n : Nat) : '.' ∉ padDigits w n := by
  intro hm
  have h := padDigits_isDigit w n '.' hm
  simp [Char.isDigit] at h

theorem dash_not_mem_padDigits (w n : Nat) : '-' ∉ padDigits w n := by
  intro hm
  have h := padDigits_isDigit w n '-' hm
  simp [Char.isDigit] at h

theorem padDigits_ne_nil (w n : Nat) (h : 0 < w) : padDigits w n ≠ [] := by
  intro e
  have := padDigits_length w n
  rw [e] at this
  simp at this
  omega

theorem numPartOk_pad2 {lo hi : Nat} (v : Nat) (h1 : lo ≤ v) (h2 : v ≤ hi) (hv : v < 100) :
    numPartOk lo hi (padDigits 2 v) = true := by
  have hval : listToNat (padDigits 2 v) = v := listToNat_padDigits 2 v (by omega)
  unfold numPartOk
  simp [padDigits_length, hval, h1, h2, List.all_eq_true, List.isEmpty_iff,
    padDigits_ne_nil 2 v (by omega)]
  exact fun c hc => padDigits_isDigit 2 v c hc

theorem dayPartOk_pad2 (v : Nat) (h1 : 1 ≤ v) (h2 : v ≤ 31) (hv : v < 100) :
    dayPartOk (padDigits 2 v) = true := by
  simp [dayPartOk, numPartOk_pad2 v h1 h2 hv]

theorem yearPartOk_pad4 (y : Nat) : yearPartOk (padDigits 4 y) = true := by
  unfold yearPartOk
  simp [padDigits_length, List.all_eq_true]
  exact fun c hc => padDigits_isDigit 4 y c hc

theorem validYmd_facts {x : Ymd} (h : validYmd x = true) :
    1 ≤ x.y ∧ x.y ≤ 9999 ∧ 1 ≤ x.m ∧ x.m ≤ 12 ∧ 1 ≤ x.d ∧ x.d ≤ daysInMonth x.y x.m := by
  simpa [validYmd, and_assoc] using h

theorem yearChars_eq_pad4 {y : Nat} (h : 1000 ≤ y) : yearChars y = padDigits 4 y := by
  unfold yearChars
  rw [if_neg (by omega), if_neg (by omega), if_neg (by omega)]

theorem pyEncYmd_eq_encYmd {x : Ymd} (h : 1000 ≤ x.y) : pyEncYmd x = encYmd x := by
  unfold pyEncYmd encYmd pyEncYmdChars encYmdChars
  rw [yearChars_eq_pad4 h]

theorem fmtOut_eq_fmtIn {x : Ymd} (h : 1000 ≤ x.y) : fmtOut x = fmtIn x := by
  unfold fmtOut fmtIn fmtOutChars fmtInChars
  rw [yearChars_eq_pad4 h]

/-- Parsing the zero-padded `dd.mm.yyyy` form of a valid date through
`strptime('%d.%m.%Y')` plus `strftime('%Y-%m-%d')` yields the stored form
(whose year is unpadded). -/
theorem validate_input_fmtIn {x : Ymd} (h : validYmd x = true) :
    validate_input_birthday (fmtIn x) = .ok (pyEncYmd x) := by
  obtain ⟨y, m, d⟩ := x
  obtain ⟨h1, h2, h3, h4, h5, h6⟩ := validYmd_facts h
  simp only at h1 h2 h3 h4 h5 h6
  have hd31 : d ≤ 31 := le_trans h6 (daysInMonth_le_31 y m)
  have hsplit : splitOnChar '.' (fmtIn ⟨y, m, d⟩).data =
      [padDigits 2 d, padDigits 2 m, padDigits 4 y] := by
    show splitOnChar '.' (padDigits 2 d ++ '.' :: (padDigits 2 m ++ '.' :: padDigits 4 y)) = _
    rw [splitOnChar_append '.' _ _ (dot_not_mem_padDigits 2 d),
      splitOnChar_append '.' _ _ (dot_not_mem_padDigits 2 m),
      splitOnChar_not_mem '.' _ (dot_not_mem_padDigits 4 y)]
  unfold validate_input_birthday
  simp only [hsplit]
  rw [if_pos (by
    simp [dayPartOk_pad2 d h5 hd31 (by omega), numPartOk_pad2 m h3 h4 (by omega),
      yearPartOk_pad4 y])]
  rw [listToNat_padDigits 2 d (by omega), listToNat_padDigits 2 m (by omega),
    listToNat_padDigits 4 y (by omega)]
  rw [if_pos ⟨h1, h6⟩]

/-- Formatting the internal form of a valid date back through
`strptime('%Y-%m-%d')` plus `strftime('%d.%m.%Y')` yields the display form. -/
theorem validate_output_encYmd {x : Ymd} (h : validYmd x = true) :
    validate_output_birthday (encYmd x) = .ok (fmtOut x) := by
  obtain ⟨y, m, d⟩ := x
  obtain ⟨h1, h2, h3, h4, h5, h6⟩ := validYmd_facts h
  simp only at h1 h2 h3 h4 h5 h6
  have hd31 : d ≤ 31 := le_trans h6 (daysInMonth_le_31 y m)
  have hsplit : splitOnChar '-' (encYmd ⟨y, m, d⟩).data =
      [padDigits 4 y, padDigits 2 m, padDigits 2 d] := by
    show splitOnChar '-' (padDigits 4 y ++ '-' :: (padDigits 2 m ++ '-' :: padDigits 2 d)) = _
    rw [splitOnChar_append '-' _ _ (dash_not_mem_padDigits 4 y),
      splitOnChar_append '-' _ _ (dash_not_mem_padDigits 2 m),
      splitOnChar_not_mem '-' _ (dash_not_mem_padDigits 2 d)]
  unfold validate_output_birthday
  simp only [hsplit]
  rw [if_pos (by
    simp [numPartOk_pad2 m h3 h4 (by omega), dayPartOk_pad2 d h5 hd31 (by omega),
      yearPartOk_pad4 y])]
  rw [listToNat_padDigits 2 d (by omega), listToNat_padDigits 2 m (by omega),
    listToNat_padDigits 4 y (by omega)]
  rw [if_pos ⟨h1, h6⟩]

/-- The outbound conversion on a stored `YYYY-MM-DD` string whose day is not a
real day of that month in that year (the stored February 29 in a non-leap
current year): Python's `datetime` constructor raises, wrapped into the
`ValidationError` message. -/
theorem validate_output_encYmd_invalid {x : Ymd} (h1 : 1 ≤ x.m) (h2 : x.m ≤ 12)
    (h3 : 1 ≤ x.d) (h4 : x.d ≤ 31) (h5 : x.y < 10000)
    (hbad : ¬(1 ≤ x.y ∧ x.d ≤ daysInMonth x.y x.m)) :
    validate_output_birthday (encYmd x) = .error (.validation outBirthdayErrMsg) := by
  obtain ⟨y, m, d⟩ := x
  simp only at h1 h2 h3 h4 h5 hbad
  have hsplit : splitOnChar '-' (encYmd ⟨y, m, d⟩).data =
      [padDigits 4 y, padDigits 2 m, padDigits 2 d] := by
    show splitOnChar '-' (padDigits 4 y ++ '-' :: (padDigits 2 m ++ '-' :: padDigits 2 d)) = _
    rw [splitOnChar_append '-' _ _ (dash_not_mem_padDigits 4 y),
      splitOnChar_append '-' _ _ (dash_not_mem_padDigits 2 m),
      splitOnChar_not_mem '-' _ (dash_not_mem_padDigits 2 d)]
  unfold validate_output_birthday
  simp only [hsplit]
  rw [if_pos (by
    simp [numPartOk_pad2 m h1 h2 (by omega), dayPartOk_pad2 d h3 h4 (by omega),
      yearPartOk_pad4 y])]
  rw [listToNat_padDigits 2 d (by omega), listToNat_padDigits 2 m (by omega),
    listToNat_padDigits 4 y (by omega)]
  rw [if_neg hbad]

theorem sqliteParseYmd_bounds {l : List Char} {x : Ymd} (h : sqliteParseYmd l = some x) :
    x.y < 10000 ∧ 1 ≤ x.m ∧ x.m ≤ 12 ∧ 1 ≤ x.d ∧ x.d ≤ 31 := by
  unfold sqliteParseYmd at h
  split at h
  case _ y1 y2 y3 y4 m1 m2 d1 d2 =>
    split at h
    case isTrue hdig =>
      split at h
      case isTrue hr =>
        have hy : listToNat [y1, y2, y3, y4] < 10000 := by
          have := listToNat_le [y1, y2, y3, y4] (by
            intro c hc
            apply (List.all_eq_true.mp hdig c)
            simp at hc ⊢
            tauto)
          simpa using this
        injection h with h
        subst h
        exact ⟨hy, hr.1, hr.2.1, hr.2.2.1, hr.2.2.2⟩
      case isFalse => exact absurd h (by simp)
    case isFalse => exact absurd h (by simp)
  case _ => exact absurd h (by simp)

/-! ### Row-level helper lemmas -/

theorem contains_insert_or_update_contact (n : String) (db : DB) :
    (insert_or_update_contact n db).contacts.contains n = true := by
  unfold insert_or_update_contact
  split
  case isTrue h => exact h
  case isFalse h => simp

theorem insert_or_update_contact_phones (n : String) (db : DB) :
    (insert_or_update_contact n db).phones = db.phones := by
  unfold insert_or_update_contact
  split <;> rfl

theorem insert_or_update_contact_birthdays (n : String) (db : DB) :
    (insert_or_update_contact n db).birthdays = db.birthdays := by
  unfold insert_or_update_contact
  split <;> rfl

theorem mem_insert_or_update_contact {s n : String} {db : DB}
    (h : s ∈ db.contacts) : s ∈ (insert_or_update_contact n db).contacts := by
  unfold insert_or_update_contact
  split
  · exact h
  · simp [h]

theorem self_mem_insert_or_update_contact (n : String) (db : DB) :
    n ∈ (insert_or_update_contact n db).contacts := by
  unfold insert_or_update_contact
  split
  case isTrue h => simpa using h
  case isFalse h => simp

theorem upsertRow_find (l : List (String × String)) (n v : String) :
    (upsertRow l n v).find? (fun r => r.1 == n) = some (n, v) := by
  induction l with
  | nil => simp [upsertRow, List.find?]
  | cons r rs ih =>
    unfold upsertRow
    by_cases h : r.1 = n
    · rw [if_pos h]
      simp [List.find?]
    · rw [if_neg h]
      rw [List.find?_cons_of_neg _ (by simp [h]), ih]

theorem upsertRow_any (l : List (String × String)) (n v : String) :
    (upsertRow l n v).any (fun r => r.1 == n) = true := by
  have hf := upsertRow_find l n v
  have hm := List.mem_of_find?_eq_some hf
  rw [List.any_eq_true]
  exact ⟨(n, v), hm, by simp⟩

theorem mem_upsertRow {r' : String × String} {l : List (String × String)} {n v : String}
    (h : r' ∈ upsertRow l n v) : r' ∈ l ∨ r' = (n, v) := by
  induction l with
  | nil => simpa [upsertRow] using h
  | cons r rs ih =>
    unfold upsertRow at h
    split at h
    · rcases List.mem_cons.mp h with h | h
      · right; exact h
      · left; exact List.mem_cons_of_mem _ h
    · rcases List.mem_cons.mp h with h | h
      · left; simp [h]
      · rcases ih h with h | h
        · left; exact List.mem_cons_of_mem _ h
        · right; exact h

theorem char_le_iff_toNat {a b : Char} : a ≤ b ↔ a.toNat ≤ b.toNat := by
  rw [Char.le_def]
  exact ⟨fun h => h, fun h => h⟩

theorem DB.fields_eq {a b : DB} (h1 : a.contacts = b.contacts) (h2 : a.phones = b.phones)
    (h3 : a.birthdays = b.birthdays) : a = b := by
  cases a
  cases b
  simp_all

theorem count_filter_out (l : List (String × String)) (x : String × String) :
    (l.filter fun r => !(r == x)).count x = 0 := by
  rw [List.count_eq_zero]
  intro hm
  rw [List.mem_filter] at hm
  simp at hm

theorem count_filter_of_pos {p : String × String → Bool} {x : String × String}
    (l : List (String × String)) (h : p x = true) : (l.filter p).count x = l.count x := by
  induction l with
  | nil => rfl
  | cons r rs ih =>
    by_cases hr : p r = true
    · rw [List.filter_cons_of_pos hr, List.count_cons, List.count_cons, ih]
    · rw [List.filter_cons_of_neg (by simpa using hr), List.count_cons, ih]
      have hx : (r == x) = false := by
        rw [beq_eq_false_iff_ne]
        intro e
        rw [e] at hr
        exact hr h
      rw [hx]
      simp

theorem filter_out_self (l : List (String × String)) (x : String × String) :
    (l.filter fun r => !(r == x)).filter (fun r => !(r == x)) =
      l.filter fun r => !(r == x) := by
  rw [List.filter_eq_self]
  intro a ha
  exact (List.mem_filter.mp ha).2

/-- The store after a successful `add_phone`: contact upserted, conflicting
phone row removed, new row appended. -/
def phoneInserted (n p : String) (db : DB) : DB :=
  { contacts := (insert_or_update_contact n db).contacts,
    phones := db.phones.filter (fun r => !(r == (n, p))) ++ [(n, p)],
    birthdays := db.birthdays }

/-- The store after a successful `add_birthday`: contact upserted, birthday
row upserted. -/
def birthdayInserted (n ib : String) (db : DB) : DB :=
  { contacts := (insert_or_update_contact n db).contacts,
    phones := db.phones,
    birthdays := upsertRow db.birthdays n ib }

/-- The successful shape of `add_phone`. -/
theorem add_phone_ok (n p : String) (db : DB) (hn : nameOk n.data = true)
    (hp : phoneOk p.data = true) :
    add_phone n p db = (.ok "Phone: added.", phoneInserted n p db) := by
  have hv : validate_input_name n = .ok n := by simp [validate_input_name, hn]
  have hvp : validate_input_phone p = .ok p := by simp [validate_input_phone, hp]
  simp [add_phone, hv, hvp, insert_or_replace_phone, contains_insert_or_update_contact,
    self_mem_insert_or_update_contact, insert_or_update_contact_phones,
    insert_or_update_contact_birthdays, phoneInserted]

/-- The successful shape of `add_birthday`. -/
theorem add_birthday_ok (n b : String) (db : DB) (hn : nameOk n.data = true)
    {ib : String} (hb : validate_input_birthday b = .ok ib) :
    add_birthday n b db = (.ok "Birthday: added.", birthdayInserted n ib db) := by
  have hv : validate_input_name n = .ok n := by simp [validate_input_name, hn]
  simp [add_birthday, hv, hb, insert_or_update_birthday, contains_insert_or_update_contact,
    self_mem_insert_or_update_contact, insert_or_update_contact_phones,
    insert_or_update_contact_birthdays, birthdayInserted]

/-! ### The claims -/

/-- C8: the phone validation of `addPhone` and `editPhone` accepts a string
iff it is exactly 10 ASCII digits; it rejects "12345", "12345678901" and
"12345abcde" with the `ValidationError` message and accepts "0971122333". -/
theorem phone_validation_iff :
    (∀ s : String, validate_input_phone s = .ok s ↔
      (s.data.length = 10 ∧ ∀ c ∈ s.data, c.isDigit = true)) ∧
    validate_input_phone "12345" = .error (.validation phoneErrMsg) ∧
    validate_input_phone "12345678901" = .error (.validation phoneErrMsg) ∧
    validate_input_phone "12345abcde" = .error (.validation phoneErrMsg) ∧
    validate_input_phone "0971122333" = .ok "0971122333" := by
  refine ⟨fun s => ?_, rfl, rfl, rfl, rfl⟩
  constructor
  · intro h
    by_cases hp : phoneOk s.data = true
    · simpa [phoneOk, List.all_eq_true] using hp
    · rw [validate_input_phone, if_neg hp] at h
      exact absurd h (by simp)
  · intro ⟨h1, h2⟩
    have hp : phoneOk s.data = true := by
      simp [phoneOk, List.all_eq_true, h1]
      exact h2
    simp [validate_input_phone, hp]

/-- C1 counterexample: the code's name pattern is `[A-z]{2,32}`, not
`[A-Za-z]{2,32}`: the name "A_" is accepted (no `ValidationError`) although
the underscore is not an ASCII letter, so validation does not raise iff the
input fails `[A-Za-z]{2,32}`. -/
theorem name_validation_cex :
    validate_input_name "A_" = .ok "A_" ∧ specNamePattern "A_".data = false :=
  ⟨rfl, rfl⟩

/-- C1 (amended): the name validation of the five operations raises
`ValidationError` iff the input fails `[A-z]{2,32}`: between 2 and 32
characters, each with code point between 65 ('A') and 122 ('z') — a range
that also admits the six punctuation characters with code points 91 to 96. -/
theorem name_validation_amended :
    ∀ s : String, validate_input_name s = .ok s ↔
      (2 ≤ s.data.length ∧ s.data.length ≤ 32 ∧
        ∀ c ∈ s.data, 65 ≤ c.toNat ∧ c.toNat ≤ 122) := by
  intro s
  have hiff : nameOk s.data = true ↔
      (2 ≤ s.data.length ∧ s.data.length ≤ 32 ∧
        ∀ c ∈ s.data, 65 ≤ c.toNat ∧ c.toNat ≤ 122) := by
    simp only [nameOk, Bool.and_eq_true, decide_eq_true_eq, List.all_eq_true]
    constructor
    · rintro ⟨⟨h1, h2⟩, h3⟩
      refine ⟨h1, h2, fun c hc => ?_⟩
      have hx := h3 c hc
      exact ⟨char_le_iff_toNat.mp hx.1, char_le_iff_toNat.mp hx.2⟩
    · rintro ⟨h1, h2, h3⟩
      refine ⟨⟨h1, h2⟩, fun c hc => ?_⟩
      exact ⟨char_le_iff_toNat.mpr (h3 c hc).1, char_le_iff_toNat.mpr (h3 c hc).2⟩
  constructor
  · intro h
    by_cases hp : nameOk s.data = true
    · exact hiff.mp hp
    · rw [validate_input_name, if_neg hp] at h
      exact absurd h (by simp)
  · intro h
    simp [validate_input_name, hiff.mpr h]

/-- C2: `edit_phone` is not exception-free on validated inputs: when the
contact already owns both the old and the new number, the UPDATE collides
with the modelled `UNIQUE(contact_name, phone)` constraint and raises
`sqlite3.IntegrityError` (not a `ValidationError`), with the store left
unchanged. -/
theorem edit_phone_integrity_bug :
    edit_phone "Ann" "0000000000" "1111111111"
        ⟨["Ann"], [("Ann", "0000000000"), ("Ann", "1111111111")], []⟩ =
      (.error .integrity,
        ⟨["Ann"], [("Ann", "0000000000"), ("Ann", "1111111111")], []⟩) := rfl

/-- C7: `addBirthday`, `addPhone` and `editPhone` validate their arguments
first, in order, short-circuiting at the first failure, raise the
corresponding `ValidationError`, and leave the store untouched.  The
birthday clause restricts the text to ASCII, where the embedded strptime
model is exact; a non-ASCII text with Unicode decimal digits can be a
well-formed date for CPython's `\d` and is then accepted, not raised on. -/
theorem mutating_ops_validate_first (n b p p2 : String) (db : DB) :
    (nameOk n.data = false →
      add_birthday n b db = (.error (.validation nameErrMsg), db) ∧
      add_phone n p db = (.error (.validation nameErrMsg), db) ∧
      edit_phone n p p2 db = (.error (.validation nameErrMsg), db)) ∧
    (nameOk n.data = true → (∀ c ∈ b.data, c.toNat ≤ 127) → ∀ e,
      validate_input_birthday b = .error e →
      add_birthday n b db = (.error e, db)) ∧
    (nameOk n.data = true → phoneOk p.data = false →
      add_phone n p db = (.error (.validation phoneErrMsg), db) ∧
      edit_phone n p p2 db = (.error (.validation phoneErrMsg), db)) ∧
    (nameOk n.data = true → phoneOk p.data = true → phoneOk p2.data = false →
      edit_phone n p p2 db = (.error (.validation phoneErrMsg), db)) := by
  refine ⟨fun hn => ?_, fun hn hascii e he => ?_, fun hn hp => ?_, fun hn hp hp2 => ?_⟩
  · have hv : validate_input_name n = .error (.validation nameErrMsg) := by
      simp [validate_input_name, hn]
    exact ⟨by simp [add_birthday, hv], by simp [add_phone, hv], by simp [edit_phone, hv]⟩
  · have hv : validate_input_name n = .ok n := by simp [validate_input_name, hn]
    simp [add_birthday, hv, he]
  · have hv : validate_input_name n = .ok n := by simp [validate_input_name, hn]
    have hvp : validate_input_phone p = .error (.validation phoneErrMsg) := by
      simp [validate_input_phone, hp]
    exact ⟨by simp [add_phone, hv, hvp], by simp [edit_phone, hv, hvp]⟩
  · have hv : validate_input_name n = .ok n := by simp [validate_input_name, hn]
    have hvp : validate_input_phone p = .ok p := by simp [validate_input_phone, hp]
    have hvp2 : validate_input_phone p2 = .error (.validation phoneErrMsg) := by
      simp [validate_input_phone, hp2]
    simp [edit_phone, hv, hvp, hvp2]

/-- C6: on validated inputs, `editPhone` for an absent contact, and for a
present contact lacking the old number, returns the corresponding absent
message and leaves the whole store unchanged — in particular no row with the
new number is created. -/
theorem edit_phone_not_found_frame (n p p2 : String) (db : DB)
    (hn : nameOk n.data = true) (hp : phoneOk p.data = true)
    (hp2 : phoneOk p2.data = true) :
    (is_contact_present n db = false →
      edit_phone n p p2 db =
        (.ok ("Contact " ++ n ++ " is absent in address book and can not be edited."), db)) ∧
    (is_contact_present n db = true → is_phone_present n p db = false →
      edit_phone n p p2 db =
        (.ok ("Phone " ++ p ++ " is absent in contact " ++ n ++ " and can not be edited."), db)) := by
  have hv : validate_input_name n = .ok n := by simp [validate_input_name, hn]
  have hv1 : validate_input_phone p = .ok p := by simp [validate_input_phone, hp]
  have hv2 : validate_input_phone p2 = .ok p2 := by simp [validate_input_phone, hp2]
  constructor
  · intro hc
    simp [edit_phone, hv, hv1, hv2, hc]
  · intro hc hph
    simp [edit_phone, hv, hv1, hv2, hc, hph]

/-- C6 witness: concrete absent-contact edit on the empty store. -/
theorem edit_phone_not_found_frame_witness :
    edit_phone "Bob" "0123456789" "0987654321" ⟨[], [], []⟩ =
      (.ok "Contact Bob is absent in address book and can not be edited.",
        ⟨[], [], []⟩) :=
  (edit_phone_not_found_frame "Bob" "0123456789" "0987654321" ⟨[], [], []⟩
    rfl rfl rfl).1 rfl

theorem mem_of_is_contact_present {n : String} {db : DB}
    (h : is_contact_present n db = true) : n ∈ db.contacts := by
  simpa [is_contact_present] using h

theorem insert_or_update_contact_of_mem {n : String} {db : DB} (h : n ∈ db.contacts) :
    insert_or_update_contact n db = db := by
  unfold insert_or_update_contact
  rw [if_pos (by simpa using h)]

/-- Every branch of `edit_phone` leaves the store unchanged, except the
successful UPDATE, which rewrites the matching phone row in place. -/
theorem edit_phone_post (n p p2 : String) (db : DB) :
    (edit_phone n p p2 db).2 = db ∨
    ((edit_phone n p p2 db).2 =
        { db with phones := db.phones.map fun r => if r == (n, p) then (n, p2) else r } ∧
      is_contact_present n db = true) := by
  by_cases hn : nameOk n.data = true
  · have hv : validate_input_name n = .ok n := by simp [validate_input_name, hn]
    by_cases hpp : phoneOk p.data = true
    · have hv1 : validate_input_phone p = .ok p := by simp [validate_input_phone, hpp]
      by_cases hpp2 : phoneOk p2.data = true
      · have hv2 : validate_input_phone p2 = .ok p2 := by simp [validate_input_phone, hpp2]
        by_cases hc : is_contact_present n db = true
        · by_cases hph : is_phone_present n p db = true
          · by_cases hcol : update_phone_conflict n p p2 db = true
            · left
              simp [edit_phone, hv, hv1, hv2, hc, hph, update_phone, hcol]
            · right
              refine ⟨?_, hc⟩
              simp [edit_phone, hv, hv1, hv2, hc, hph, update_phone, hcol]
          · left
            simp [edit_phone, hv, hv1, hv2, hc, hph]
        · left
          simp [edit_phone, hv, hv1, hv2, hc]
      · left
        have hv2 : validate_input_phone p2 = .error (.validation phoneErrMsg) := by
          simp [validate_input_phone, hpp2]
        simp [edit_phone, hv, hv1, hv2]
    · left
      have hv1 : validate_input_phone p = .error (.validation phoneErrMsg) := by
        simp [validate_input_phone, hpp]
      simp [edit_phone, hv, hv1]
  · left
    have hv : validate_input_name n = .error (.validation nameErrMsg) := by
      simp [validate_input_name, hn]
    simp [edit_phone, hv]

/-- C5: on validated inputs, adding the same `(name, phone)` pair twice leaves
exactly one such row — the repeated insert is a no-op on the whole store —
while a subsequent `addPhone` with a different number keeps both rows (one
each) instead of replacing the first. -/
theorem add_phone_idempotent_accumulates (n p p2 : String) (db : DB)
    (hn : nameOk n.data = true) (hp : phoneOk p.data = true)
    (hp2 : phoneOk p2.data = true) (hne : p2 ≠ p) :
    (add_phone n p db).1 = .ok "Phone: added." ∧
    (add_phone n p (add_phone n p db).2).2 = (add_phone n p db).2 ∧
    (add_phone n p db).2.phones.count (n, p) = 1 ∧
    (add_phone n p2 (add_phone n p (add_phone n p db).2).2).2.phones.count (n, p) = 1 ∧
    (add_phone n p2 (add_phone n p (add_phone n p db).2).2).2.phones.count (n, p2) = 1 := by
  have hpair : ((n, p) == (n, p2)) = false := by
    rw [beq_eq_false_iff_ne]
    intro e
    exact hne ((Prod.mk.injEq n p n p2).mp e).2.symm
  have hpair2 : ((n, p2) == (n, p)) = false := by
    rw [beq_eq_false_iff_ne]
    intro e
    exact hne ((Prod.mk.injEq n p2 n p).mp e).2
  have e1 := add_phone_ok n p db hn hp
  have hmem : n ∈ (phoneInserted n p db).contacts := self_mem_insert_or_update_contact n db
  have hfilt : (phoneInserted n p db).phones.filter (fun r => !(r == (n, p))) =
      db.phones.filter (fun r => !(r == (n, p))) := by
    show ((db.phones.filter (fun r => !(r == (n, p))) ++ [(n, p)]).filter
      (fun r => !(r == (n, p)))) = _
    rw [List.filter_append, filter_out_self]
    simp
  have hnoop : (add_phone n p (phoneInserted n p db)).2 = phoneInserted n p db := by
    rw [add_phone_ok n p _ hn hp]
    refine DB.fields_eq ?_ ?_ ?_
    · show (insert_or_update_contact n (phoneInserted n p db)).contacts =
        (phoneInserted n p db).contacts
      rw [insert_or_update_contact_of_mem hmem]
    · show (phoneInserted n p db).phones.filter (fun r => !(r == (n, p))) ++ [(n, p)] =
        (phoneInserted n p db).phones
      rw [hfilt]
      rfl
    · rfl
  have hcount1 : (phoneInserted n p db).phones.count (n, p) = 1 := by
    show (db.phones.filter (fun r => !(r == (n, p))) ++ [(n, p)]).count (n, p) = 1
    rw [List.count_append, count_filter_out]
    simp
  have h4 : (add_phone n p (add_phone n p db).2).2 = phoneInserted n p db := by
    rw [e1]
    exact hnoop
  refine ⟨by rw [e1], by rw [e1]; exact hnoop, by rw [e1]; exact hcount1, ?_, ?_⟩
  · rw [h4, add_phone_ok n p2 _ hn hp2]
    show ((phoneInserted n p db).phones.filter (fun r => !(r == (n, p2))) ++
      [(n, p2)]).count (n, p) = 1
    rw [List.count_append, count_filter_of_pos _ (by rw [hpair]; rfl), hcount1]
    simp [List.count_cons, hpair2]
  · rw [h4, add_phone_ok n p2 _ hn hp2]
    show ((phoneInserted n p db).phones.filter (fun r => !(r == (n, p2))) ++
      [(n, p2)]).count (n, p2) = 1
    rw [List.count_append, count_filter_out]
    simp

/-- C5 witness: the three inserts on the empty store. -/
theorem add_phone_idempotent_accumulates_witness :
    (add_phone "Ann" "0971122333" ⟨[], [], []⟩).1 = .ok "Phone: added." ∧
    (add_phone "Ann" "0971122333"
        (add_phone "Ann" "0971122333" ⟨[], [], []⟩).2).2 =
      (add_phone "Ann" "0971122333" ⟨[], [], []⟩).2 ∧
    (add_phone "Ann" "0971122333" ⟨[], [], []⟩).2.phones.count ("Ann", "0971122333") = 1 ∧
    (add_phone "Ann" "0501112233"
        (add_phone "Ann" "0971122333"
          (add_phone "Ann" "0971122333" ⟨[], [], []⟩).2).2).2.phones.count
      ("Ann", "0971122333") = 1 ∧
    (add_phone "Ann" "0501112233"
        (add_phone "Ann" "0971122333"
          (add_phone "Ann" "0971122333" ⟨[], [], []⟩).2).2).2.phones.count
      ("Ann", "0501112233") = 1 :=
  add_phone_idempotent_accumulates "Ann" "0971122333" "0501112233" ⟨[], [], []⟩
    rfl rfl rfl (by decide)

/-- C9: the three mutating operations preserve referential integrity: a
contact row is upserted before any dependent phone or birthday row is
written, and an UPDATE never changes the owning contact name (reads do not
write at all).  The foreign keys this relies on are enabled by `PRAGMA
foreign_keys = ON` at initialization, modelled as the integrity checks inside
the row operations. -/
theorem ops_preserve_refIntegrity (n b p p2 : String) (db : DB)
    (h : refIntegrity db) :
    refIntegrity (add_birthday n b db).2 ∧ refIntegrity (add_phone n p db).2 ∧
    refIntegrity (edit_phone n p p2 db).2 := by
  obtain ⟨hph, hbd⟩ := h
  refine ⟨?_, ?_, ?_⟩
  · by_cases hn : nameOk n.data = true
    · have hv : validate_input_name n = .ok n := by simp [validate_input_name, hn]
      cases hvb : validate_input_birthday b with
      | error e =>
        have he : add_birthday n b db = (.error e, db) := by simp [add_birthday, hv, hvb]
        rw [he]
        exact ⟨hph, hbd⟩
      | ok ib =>
        rw [add_birthday_ok n b db hn hvb]
        show refIntegrity (birthdayInserted n ib db)
        unfold birthdayInserted refIntegrity
        refine ⟨fun r hr => ?_, fun r hr => ?_⟩
        · exact mem_insert_or_update_contact (hph r hr)
        · rcases mem_upsertRow hr with h' | h'
          · exact mem_insert_or_update_contact (hbd r h')
          · rw [h']
            exact self_mem_insert_or_update_contact n db
    · have hv : validate_input_name n = .error (.validation nameErrMsg) := by
        simp [validate_input_name, hn]
      have he : add_birthday n b db = (.error (.validation nameErrMsg), db) := by
        simp [add_birthday, hv]
      rw [he]
      exact ⟨hph, hbd⟩
  · by_cases hn : nameOk n.data = true
    · have hv : validate_input_name n = .ok n := by simp [validate_input_name, hn]
      by_cases hpp : phoneOk p.data = true
      · rw [add_phone_ok n p db hn hpp]
        show refIntegrity (phoneInserted n p db)
        unfold phoneInserted refIntegrity
        refine ⟨fun r hr => ?_, fun r hr => ?_⟩
        · rcases List.mem_append.mp hr with h' | h'
          · exact mem_insert_or_update_contact (hph r (List.mem_filter.mp h').1)
          · rw [List.mem_singleton.mp h']
            exact self_mem_insert_or_update_contact n db
        · exact mem_insert_or_update_contact (hbd r hr)
      · have hvp : validate_input_phone p = .error (.validation phoneErrMsg) := by
          simp [validate_input_phone, hpp]
        have he : add_phone n p db = (.error (.validation phoneErrMsg), db) := by
          simp [add_phone, hv, hvp]
        rw [he]
        exact ⟨hph, hbd⟩
    · have hv : validate_input_name n = .error (.validation nameErrMsg) := by
        simp [validate_input_name, hn]
      have he : add_phone n p db = (.error (.validation nameErrMsg), db) := by
        simp [add_phone, hv]
      rw [he]
      exact ⟨hph, hbd⟩
  · rcases edit_phone_post n p p2 db with he | ⟨he, hc⟩
    · rw [he]
      exact ⟨hph, hbd⟩
    · rw [he]
      refine ⟨fun r hr => ?_, fun r hr => ?_⟩
      · rcases List.mem_map.mp hr with ⟨r0, hr0, hfr⟩
        by_cases hbe : (r0 == (n, p)) = true
        · rw [if_pos hbe] at hfr
          rw [← hfr]
          exact mem_of_is_contact_present hc
        · rw [if_neg (by simpa using hbe)] at hfr
          rw [← hfr]
          exact hph r0 hr0
      · exact hbd r hr

/-- C9 witness: a first insert on the empty store. -/
theorem ops_preserve_refIntegrity_witness :
    refIntegrity (add_phone "Ann" "0971122333" ⟨[], [], []⟩).2 :=
  (ops_preserve_refIntegrity "Ann" "31.12.2024" "0971122333" "0501112233" ⟨[], [], []⟩
    ⟨by simp, by simp⟩).2.1

/-- C3 (amended): for birthday texts in zero-padded `dd.mm.yyyy` form whose
year is 1000-9999, the inbound conversion to internal `yyyy-mm-dd` form and
the outbound conversion back are mutually inverse, and the date round-trips
through storage: `addBirthday` followed by `showBirthday` returns the contact
line ending in the original text.  (For years 1-999 glibc `strftime('%Y')`
stores the year unpadded and `showBirthday` raises instead — see the
counterexample.) -/
theorem birthday_roundtrip (n : String) (x : Ymd) (db : DB)
    (hn : nameOk n.data = true) (hv : validYmd x = true) (hy : 1000 ≤ x.y) :
    validate_input_birthday (fmtIn x) = .ok (encYmd x) ∧
    validate_output_birthday (encYmd x) = .ok (fmtIn x) ∧
    (add_birthday n (fmtIn x) db).1 = .ok "Birthday: added." ∧
    show_birthday n (add_birthday n (fmtIn x) db).2 =
      .ok ("Contact: " ++ n ++ ", Birthday: " ++ fmtIn x) := by
  have hin : validate_input_birthday (fmtIn x) = .ok (encYmd x) := by
    rw [validate_input_fmtIn hv, pyEncYmd_eq_encYmd hy]
  have hout : validate_output_birthday (encYmd x) = .ok (fmtIn x) := by
    rw [validate_output_encYmd hv, fmtOut_eq_fmtIn hy]
  have e1 := add_birthday_ok n (fmtIn x) db hn hin
  have hv2 : validate_input_name n = .ok n := by simp [validate_input_name, hn]
  have hcp : is_contact_present n (birthdayInserted n (encYmd x) db) = true := by
    show (insert_or_update_contact n db).contacts.contains n = true
    exact contains_insert_or_update_contact n db
  have hbp : is_birthday_present n (birthdayInserted n (encYmd x) db) = true := by
    show (upsertRow db.birthdays n (encYmd x)).any (fun r => r.1 == n) = true
    exact upsertRow_any db.birthdays n (encYmd x)
  have hsel : select_birthday n (birthdayInserted n (encYmd x) db) = some (encYmd x) := by
    show ((upsertRow db.birthdays n (encYmd x)).find? (fun r => r.1 == n)).map
      (fun r => r.2) = _
    rw [upsertRow_find]
    rfl
  refine ⟨hin, hout, by rw [e1], ?_⟩
  rw [e1]
  simp [show_birthday, hv2, hcp, hbp, hsel, hout]

/-- C3 counterexample: "31.12.0999" is a birthday text accepted in
`dd.mm.yyyy` form, but glibc `strftime('%Y')` stores the year unpadded as
'999-12-31'; the outbound parser (`%Y` wants four digits) then rejects the
stored value, so `showBirthday` raises a `ValidationError` instead of
returning the contact line containing the text — the conversions are not
mutually inverse below year 1000. -/
theorem birthday_roundtrip_cex :
    validate_input_birthday "31.12.0999" = .ok "999-12-31" ∧
    (add_birthday "Al" "31.12.0999" ⟨[], [], []⟩).1 = .ok "Birthday: added." ∧
    show_birthday "Al" (add_birthday "Al" "31.12.0999" ⟨[], [], []⟩).2 =
      .error (.validation outBirthdayErrMsg) :=
  ⟨rfl, rfl, rfl⟩

/-- C3 witness: the claim's own example on the empty store. -/
theorem birthday_roundtrip_witness :
    show_birthday "Alice" (add_birthday "Alice" "31.12.2024" ⟨[], [], []⟩).2 =
      .ok "Contact: Alice, Birthday: 31.12.2024" :=
  (birthday_roundtrip "Alice" ⟨2024, 12, 31⟩ ⟨[], [], []⟩ rfl rfl (by decide)).2.2.2

/-! ### The birthday window -/

theorem nextDay_bounds (a : Ymd) (h1 : 1 ≤ a.m) (h2 : a.m ≤ 12) (h3 : a.d ≤ 31) :
    (nextDay a).y ≤ a.y + 1 ∧ 1 ≤ (nextDay a).m ∧ (nextDay a).m ≤ 12 ∧
      (nextDay a).d ≤ 31 := by
  have hd := daysInMonth_le_31 a.y a.m
  unfold nextDay
  split
  next h =>
    refine ⟨?_, ?_, ?_, ?_⟩ <;> dsimp only <;> omega
  next h =>
    split
    next h4 =>
      refine ⟨?_, ?_, ?_, ?_⟩ <;> dsimp only <;> omega
    next h4 =>
      refine ⟨?_, ?_, ?_, ?_⟩ <;> dsimp only <;> omega

theorem addDays_bounds (k : Nat) (a : Ymd) (h1 : 1 ≤ a.m) (h2 : a.m ≤ 12)
    (h3 : a.d ≤ 31) :
    (addDays k a).y ≤ a.y + k ∧ 1 ≤ (addDays k a).m ∧ (addDays k a).m ≤ 12 ∧
      (addDays k a).d ≤ 31 := by
  induction k generalizing a with
  | zero => exact ⟨by simp [addDays], by simpa [addDays] using h1,
      by simpa [addDays] using h2, by simpa [addDays] using h3⟩
  | succ k ih =>
    have hb := nextDay_bounds a h1 h2 h3
    have hk := ih (nextDay a) hb.2.1 hb.2.2.1 hb.2.2.2
    rw [show addDays (k + 1) a = addDays k (nextDay a) from rfl]
    exact ⟨by omega, hk.2.1, hk.2.2.1, hk.2.2.2⟩

theorem validYmd_bounded {a : Ymd} (h : validYmd a = true) : ymdBounded a := by
  have hf := validYmd_facts h
  have hd := daysInMonth_le_31 a.y a.m
  exact ⟨by omega, by omega, by omega⟩

theorem addDays7_bounded {a : Ymd} (h : validYmd a = true) (hy : a.y ≤ 9990) :
    ymdBounded (addDays 7 a) := by
  have hf := validYmd_facts h
  have hd := daysInMonth_le_31 a.y a.m
  have hb := addDays_bounds 7 a (by omega) (by omega) (by omega)
  exact ⟨by omega, by omega, by omega⟩

/-- On fixed-width encodings, the SQL string window test is the calendar
window test. -/
theorem strInWindow_enc (today t : Ymd) (hTb : ymdBounded today)
    (hAb : ymdBounded (addDays 7 today)) (htb : ymdBounded t) :
    strInWindow today (encYmdChars t) = ymdInWindow today t := by
  unfold strInWindow ymdInWindow
  rw [lcmp_encYmd today t hTb htb, lcmp_encYmd t (addDays 7 today) htb hAb]

/-- Under the hypotheses of C4 the SQL selection is the claim's calendar
selection, with each kept date rendered in the internal form. -/
theorem select_eq_map_spec (today : Ymd) (db : DB)
    (hTb : ymdBounded today) (hAb : ymdBounded (addDays 7 today))
    (H : ∀ r ∈ db.birthdays, ∃ x, sqliteParseYmd r.2.data = some x ∧
      validYmd (⟨today.y, x.m, x.d⟩ : Ymd) = true) :
    select_birthdays_next_week today db =
      (specSelect today db).map (fun r => (r.1, encYmd r.2)) := by
  unfold select_birthdays_next_week specSelect
  revert H
  generalize db.birthdays = l
  intro H
  induction l with
  | nil => rfl
  | cons r rs ih =>
    obtain ⟨x, hx, hvx⟩ := H r (List.mem_cons_self r rs)
    have ihh := ih (fun r2 h2 => H r2 (List.mem_cons_of_mem _ h2))
    have hpb : ymdBounded (⟨today.y, x.m, x.d⟩ : Ymd) := validYmd_bounded hvx
    rw [List.filterMap_cons, List.filterMap_cons]
    simp only [hx]
    rw [strInWindow_enc today _ hTb hAb hpb]
    by_cases hw : ymdInWindow today ⟨today.y, x.m, x.d⟩ = true
    · simp [hw, ihh, encYmd]
    · simp [hw, ihh]

theorem specSelect_valid (today : Ymd) (db : DB)
    (H : ∀ r ∈ db.birthdays, ∃ x, sqliteParseYmd r.2.data = some x ∧
      validYmd (⟨today.y, x.m, x.d⟩ : Ymd) = true) :
    ∀ r2 ∈ specSelect today db, validYmd r2.2 = true := by
  intro r2 h2
  unfold specSelect at h2
  rw [List.mem_filterMap] at h2
  obtain ⟨r, hr, he⟩ := h2
  obtain ⟨x, hx, hvx⟩ := H r hr
  rw [hx] at he
  simp only [Option.bind] at he
  split at he
  next hw =>
    injection he with he
    rw [← he]
    exact hvx
  next hw => exact absurd he (by simp)

/-- The report loop succeeds on internal-form cells of valid dates and
produces the claim's lines. -/
theorem congratsReport_map (l : List (String × Ymd))
    (hval : ∀ r ∈ l, validYmd r.2 = true) :
    congratsReport (l.map fun r => (r.1, encYmd r.2)) = .ok (specCongrats l) := by
  induction l with
  | nil => rfl
  | cons r rs ih =>
    rw [List.map_cons]
    show congratsReport ((r.1, encYmd r.2) :: rs.map fun r => (r.1, encYmd r.2)) = _
    simp only [congratsReport]
    rw [validate_output_encYmd (hval r (List.mem_cons_self r rs)),
      ih (fun r2 h2 => hval r2 (List.mem_cons_of_mem _ h2))]
    rfl

/-- C4 (amended): when today is a valid date (year at most 9990) and every
stored birthday parses with a month-day that is a real date in the current
year, `showBirthdaysNextWeek` returns exactly the claim's report: the rows
whose current-year occurrence falls in the inclusive calendar window
`[today, today + 7 days]`, formatted `dd.mm.yyyy`, and the no-birthdays
message when that selection is empty.  (Stored February 29 in a non-leap
year is excluded by the hypothesis: there the operation raises instead —
see the counterexample.) -/
theorem show_birthdays_next_week_spec (today : Ymd) (db : DB)
    (hT : validYmd today = true) (hY : today.y ≤ 9990)
    (H : ∀ r ∈ db.birthdays, ∃ x, sqliteParseYmd r.2.data = some x ∧
      validYmd (⟨today.y, x.m, x.d⟩ : Ymd) = true) :
    show_birthdays_next_week today db = .ok (specNextWeekReport today db) := by
  have hTb := validYmd_bounded hT
  have hAb := addDays7_bounded hT hY
  have hsel := select_eq_map_spec today db hTb hAb H
  unfold show_birthdays_next_week specNextWeekReport
  rw [hsel]
  by_cases hs : specSelect today db = []
  · rw [hs]
    simp
  · rw [if_neg hs]
    have hlen : ¬ ((specSelect today db).map (fun r => (r.1, encYmd r.2))).length = 0 := by
      intro h0
      exact hs (by simpa using h0)
    rw [if_neg hlen, congratsReport_map _ (specSelect_valid today db H)]

/-- C4 counterexample: on 2025-02-26 (non-leap year) with one stored birthday
2024-02-29, the claim says the selection is empty (February 29, 2025 is not a
calendar date in the window) and the no-birthdays message is returned; the
code instead selects the pseudo-date string '2025-02-29' by TEXT comparison
and then raises a `ValidationError` while formatting it. -/
theorem show_birthdays_next_week_cex :
    show_birthdays_next_week ⟨2025, 2, 26⟩ ⟨["Bob"], [], [("Bob", "2024-02-29")]⟩ =
      .error (.validation outBirthdayErrMsg) := rfl

/-- C4 witness: one stored birthday three days ahead is reported. -/
theorem show_birthdays_next_week_spec_witness :
    show_birthdays_next_week ⟨2026, 10, 12⟩ ⟨["Bob"], [], [("Bob", "2000-10-15")]⟩ =
      .ok "Birthdays next week: \n\nContact: Bob, Congratulation: 15.10.2026 \n\n" :=
  show_birthdays_next_week_spec ⟨2026, 10, 12⟩ ⟨["Bob"], [], [("Bob", "2000-10-15")]⟩
    rfl (by decide) (by
      intro r hr
      rw [List.mem_singleton] at hr
      subst hr
      exact ⟨⟨2000, 10, 15⟩, rfl, rfl⟩)

/-- C10 (amended): a stored February 29 in a non-leap current year is not
always silently omitted: the recomputed string `YYYY-02-29` does take part in
the TEXT window comparison.  When it lies inside the window the operation
raises `ValidationError` while formatting it; only when it lies outside
(e.g. on March 1, the anniversary itself) is the contact silently omitted. -/
theorem feb29_next_week (today : Ymd) (n bd : String) (y0 : Nat)
    (hT : validYmd today = true) (hY : today.y ≤ 9990)
    (hL : isLeapYear today.y = false)
    (hp : sqliteParseYmd bd.data = some ⟨y0, 2, 29⟩) :
    (ymdInWindow today ⟨today.y, 2, 29⟩ = true →
      show_birthdays_next_week today ⟨[n], [], [(n, bd)]⟩ =
        .error (.validation outBirthdayErrMsg)) ∧
    (ymdInWindow today ⟨today.y, 2, 29⟩ = false →
      show_birthdays_next_week today ⟨[n], [], [(n, bd)]⟩ =
        .ok "There are no birthdays next week.") := by
  have hTb := validYmd_bounded hT
  have hAb := addDays7_bounded hT hY
  have hf := validYmd_facts hT
  have hpb : ymdBounded (⟨today.y, 2, 29⟩ : Ymd) := by
    refine ⟨?_, ?_, ?_⟩ <;> dsimp only <;> omega
  have hout : validate_output_birthday (encYmd ⟨today.y, 2, 29⟩) =
      .error (.validation outBirthdayErrMsg) := by
    apply validate_output_encYmd_invalid (by dsimp only; omega) (by dsimp only; omega)
      (by dsimp only; omega) (by dsimp only; omega) (by dsimp only; omega)
    intro hcon
    obtain ⟨hc1, hc2⟩ := hcon
    dsimp only at hc2
    have h28 : daysInMonth today.y 2 = 28 := by simp [daysInMonth, hL]
    omega
  have hsel : select_birthdays_next_week today ⟨[n], [], [(n, bd)]⟩ =
      (if ymdInWindow today ⟨today.y, 2, 29⟩ = true
        then [(n, encYmd ⟨today.y, 2, 29⟩)] else []) := by
    unfold select_birthdays_next_week
    show List.filterMap _ [(n, bd)] = _
    rw [List.filterMap_cons, List.filterMap_nil]
    simp only [hp]
    rw [strInWindow_enc today _ hTb hAb hpb]
    by_cases hw : ymdInWindow today ⟨today.y, 2, 29⟩ = true
    · simp [hw, encYmd]
    · simp [hw]
  constructor
  · intro hw
    unfold show_birthdays_next_week
    rw [hsel, if_pos hw]
    rw [if_neg (by simp)]
    simp only [congratsReport, hout]
  · intro hw
    unfold show_birthdays_next_week
    rw [hsel, hw]
    simp

/-- C10 counterexample: on 2025-02-22 the stored February 29 birthday is NOT
silently omitted — the operation raises a `ValidationError` instead of
returning a report without the contact. -/
theorem feb29_not_omitted_cex :
    show_birthdays_next_week ⟨2025, 2, 22⟩ ⟨["Eve"], [], [("Eve", "2024-02-29")]⟩ =
      .error (.validation outBirthdayErrMsg) := rfl

/-- C10 witness: a concrete in-window February 29 raising the error. -/
theorem feb29_next_week_witness :
    show_birthdays_next_week ⟨2027, 2, 24⟩ ⟨["Mia"], [], [("Mia", "2020-02-29")]⟩ =
      .error (.validation outBirthdayErrMsg) :=
  (feb29_next_week ⟨2027, 2, 24⟩ "Mia" "2020-02-29" 2020 rfl (by decide) rfl rfl).1 rfl

end Book
